import Mathlib

/-!
Shallow embedding of the task/user persistence and query service layer of the
TaskFlow repository (src/services/task_service.py, src/services/user_service.py,
src/api/schemas.py, src/models/task.py, src/models/user.py).

The database is modelled as an in-memory list of records per table.  SQLAlchemy
query combinators are embedded as list operations:
  filter            -> List.filter
  first             -> List.find?
  count             -> List.length of the filtered list
  order_by ... desc -> a stable sort by the key, descending
  offset / limit    -> List.drop / List.take
  UPDATE on the row with a given primary key -> List.map with an id test
  DELETE of the row with a given primary key -> List.filter with an id test
Timestamps are abstracted to natural numbers; the ambient clock `now` is passed
explicitly.  Generated primary keys follow the autoincrement discipline
(one more than the maximum existing id).
-/

namespace TaskFlow

/-- Task status enumeration, from src/models/task.py (class TaskStatus). -/
inductive TaskStatus where
  | pending
  | in_progress
  | completed
  | cancelled
deriving DecidableEq, Repr

/-- String value of a status, mirroring the str-enum values in src/models/task.py. -/
def TaskStatus.value : TaskStatus → String
  | .pending => "pending"
  | .in_progress => "in_progress"
  | .completed => "completed"
  | .cancelled => "cancelled"

/-- Enumeration order of TaskStatus, as iterated by Python (declaration order). -/
def TaskStatus.all : List TaskStatus :=
  [.pending, .in_progress, .completed, .cancelled]

/-- Task row, from src/models/task.py (class Task). -/
structure Task where
  id : Nat
  title : String
  description : Option String
  status : TaskStatus
  priority : Nat
  owner_id : Nat
  created_at : Nat
  updated_at : Option Nat
  due_date : Option Nat
deriving DecidableEq, Repr

/-- User row, from src/models/user.py (class User). -/
structure User where
  id : Nat
  email : String
  username : String
  hashed_password : String
  full_name : Option String
  is_active : Bool
  is_superuser : Bool
  created_at : Nat
  updated_at : Option Nat
deriving DecidableEq, Repr

/-- Autoincrement primary key: one more than the largest id in use. -/
def next_id (ids : List Nat) : Nat := ids.foldl max 0 + 1

/-- Schema TaskCreate from src/api/schemas.py: title, description, priority,
due_date.  It carries no status and no owner field. -/
structure TaskCreate where
  title : String
  description : Option String
  priority : Nat
  due_date : Option Nat
deriving DecidableEq, Repr

/-- Schema TaskUpdate from src/api/schemas.py.  The outer Option is pydantic's
set/unset distinction (exclude_unset): a `none` field was not supplied and is
not applied by update; a `some` field is applied with the supplied value. -/
structure TaskUpdate where
  title : Option String
  description : Option (Option String)
  status : Option TaskStatus
  priority : Option Nat
  due_date : Option (Option Nat)
deriving DecidableEq, Repr

/-- Schema UserCreate from src/api/schemas.py: email, username, full_name,
password (plaintext, hashed by the service before persisting). -/
structure UserCreate where
  email : String
  username : String
  full_name : Option String
  password : String
deriving DecidableEq, Repr

/-- Schema UserUpdate from src/api/schemas.py: email, username, full_name,
is_active.  The outer Option is pydantic's set/unset distinction.  The schema
carries no password field and no hashed_password field. -/
structure UserUpdate where
  email : Option String
  username : Option String
  full_name : Option (Option String)
  is_active : Option Bool
deriving DecidableEq, Repr

/-- Ordering relation used by get_by_owner: descending creation time
(order_by Task.created_at desc). -/
def CreatedDesc (a b : Task) : Prop := b.created_at ≤ a.created_at

instance : DecidableRel CreatedDesc := fun a b => Nat.decLe b.created_at a.created_at

instance : IsTotal Task CreatedDesc :=
  ⟨fun a b => Nat.le_total b.created_at a.created_at⟩

instance : IsTrans Task CreatedDesc :=
  ⟨fun _ _ _ hab hbc => Nat.le_trans hbc hab⟩

/-- Rows sorted by creation time, most recent first (order_by created_at desc). -/
def sortByCreatedDesc (l : List Task) : List Task := l.insertionSort CreatedDesc

namespace TaskService

/-- TaskService.get_by_id: query(Task).filter(Task.id == task_id).first(). -/
def get_by_id (store : List Task) (task_id : Nat) : Option Task :=
  store.find? (fun t => t.id == task_id)

/-- TaskService.get_by_owner: filter by owner, optionally by status, count the
filtered set, then order by created_at descending and apply offset/limit. -/
def get_by_owner (store : List Task) (owner_id : Nat) (status_filter : Option TaskStatus)
    (skip : Nat) (limit : Nat) : List Task × Nat :=
  let query := store.filter (fun t => t.owner_id == owner_id)
  let query2 :=
    match status_filter with
    | none => query
    | some s => query.filter (fun t => t.status == s)
  let total := query2.length
  let tasks := ((sortByCreatedDesc query2).drop skip).take limit
  (tasks, total)

/-- TaskService.create: builds a Task from the TaskCreate fields with the given
owner_id and status forced to PENDING, and persists it. -/
def create (store : List Task) (task_data : TaskCreate) (owner_id : Nat) (now : Nat) :
    Task × List Task :=
  let db_task : Task :=
    { id := next_id (store.map (fun t => t.id))
      title := task_data.title
      description := task_data.description
      status := .pending
      priority := task_data.priority
      owner_id := owner_id
      created_at := now
      updated_at := none
      due_date := task_data.due_date }
  (db_task, store ++ [db_task])

/-- Field-wise merge of a TaskUpdate into a Task: setattr for each field present
in task_data.dict(exclude_unset=True); the onupdate clock bumps updated_at. -/
def applyTaskUpdate (task_data : TaskUpdate) (now : Nat) (t : Task) : Task :=
  let t1 := match task_data.title with | none => t | some v => { t with title := v }
  let t2 := match task_data.description with | none => t1 | some v => { t1 with description := v }
  let t3 := match task_data.status with | none => t2 | some v => { t2 with status := v }
  let t4 := match task_data.priority with | none => t3 | some v => { t3 with priority := v }
  let t5 := match task_data.due_date with | none => t4 | some v => { t4 with due_date := v }
  { t5 with updated_at := some now }

/-- TaskService.update: look up by id; if absent return none, otherwise apply
the merge to the stored row and return the refreshed row. -/
def update (store : List Task) (task_id : Nat) (task_data : TaskUpdate) (now : Nat) :
    Option Task × List Task :=
  match get_by_id store task_id with
  | none => (none, store)
  | some t =>
      (some (applyTaskUpdate task_data now t),
       store.map (fun v => if v.id == task_id then applyTaskUpdate task_data now v else v))

/-- TaskService.delete: look up by id; if absent return false, otherwise remove
the row and return true. -/
def delete (store : List Task) (task_id : Nat) : Bool × List Task :=
  match get_by_id store task_id with
  | none => (false, store)
  | some _ => (true, store.filter (fun t => !(t.id == task_id)))

/-- TaskService.mark_completed: look up by id; if absent return none, otherwise
set status to COMPLETED on the stored row (the onupdate clock bumps updated_at)
and return the refreshed row. -/
def mark_completed (store : List Task) (task_id : Nat) (now : Nat) :
    Option Task × List Task :=
  match get_by_id store task_id with
  | none => (none, store)
  | some t =>
      (some { t with status := .completed, updated_at := some now },
       store.map (fun v =>
         if v.id == task_id then { v with status := .completed, updated_at := some now } else v))

/-- Distinct statuses occurring among the rows, in order of first appearance
(the GROUP BY keys of get_stats). -/
def statusesOf (tasks : List Task) : List TaskStatus :=
  (tasks.map (fun t => t.status)).dedup

/-- Result rows of the grouped count query in get_stats: one (status, count)
pair per status occurring among the rows. -/
def groupCounts (tasks : List Task) : List (TaskStatus × Nat) :=
  (statusesOf tasks).map (fun s => (s, tasks.countP (fun t => t.status == s)))

/-- Python dict assignment d[k] = v on an association list: replace the value
if the key is present, append the pair otherwise. -/
def dictSet (m : List (String × Nat)) (k : String) (v : Nat) : List (String × Nat) :=
  if m.any (fun p => p.1 == k) then
    m.map (fun p => if p.1 == k then (k, v) else p)
  else m ++ [(k, v)]

/-- TaskService.get_stats: zero-fill a dict keyed by the four status values,
then overwrite from the grouped count query scoped to owner_id. -/
def get_stats (store : List Task) (owner_id : Nat) : List (String × Nat) :=
  let owned := store.filter (fun t => t.owner_id == owner_id)
  let results := groupCounts owned
  results.foldl (fun m p => dictSet m p.1.value p.2)
    (TaskStatus.all.map (fun s => (s.value, 0)))

end TaskService

namespace UserService

/-- UserService.get_by_id: query(User).filter(User.id == user_id).first(). -/
def get_by_id (store : List User) (user_id : Nat) : Option User :=
  store.find? (fun u => u.id == user_id)

/-- UserService.get_by_email. -/
def get_by_email (store : List User) (email : String) : Option User :=
  store.find? (fun u => u.email == email)

/-- UserService.get_by_username. -/
def get_by_username (store : List User) (username : String) : Option User :=
  store.find? (fun u => u.username == username)

/-- UserService.create: hash the plaintext password with the ambient password
hasher (the module-level pwd_context, passed here as the function hash), build
the User row with the model defaults, and persist it. -/
def create (hash : String → String) (store : List User) (user_data : UserCreate)
    (now : Nat) : User × List User :=
  let hashed_password := hash user_data.password
  let db_user : User :=
    { id := next_id (store.map (fun u => u.id))
      email := user_data.email
      username := user_data.username
      hashed_password := hashed_password
      full_name := user_data.full_name
      is_active := true
      is_superuser := false
      created_at := now
      updated_at := none }
  (db_user, store ++ [db_user])

/-- Field-wise merge of a UserUpdate into a User: setattr for each field present
in user_data.dict(exclude_unset=True); the onupdate clock bumps updated_at. -/
def applyUserUpdate (user_data : UserUpdate) (now : Nat) (u : User) : User :=
  let u1 := match user_data.email with | none => u | some v => { u with email := v }
  let u2 := match user_data.username with | none => u1 | some v => { u1 with username := v }
  let u3 := match user_data.full_name with | none => u2 | some v => { u2 with full_name := v }
  let u4 := match user_data.is_active with | none => u3 | some v => { u3 with is_active := v }
  { u4 with updated_at := some now }

/-- UserService.update: look up by id; if absent return none, otherwise apply
the merge to the stored row and return the refreshed row. -/
def update (store : List User) (user_id : Nat) (user_data : UserUpdate) (now : Nat) :
    Option User × List User :=
  match get_by_id store user_id with
  | none => (none, store)
  | some u =>
      (some (applyUserUpdate user_data now u),
       store.map (fun v => if v.id == user_id then applyUserUpdate user_data now v else v))

/-- UserService.delete: look up by id; if absent return false, otherwise remove
the row and return true. -/
def delete (store : List User) (user_id : Nat) : Bool × List User :=
  match get_by_id store user_id with
  | none => (false, store)
  | some _ => (true, store.filter (fun u => !(u.id == user_id)))

/-- UserService.verify_password delegates to the ambient password hasher
(pwd_context.verify), passed here as the function verify. -/
def verify_password (verify : String → String → Bool) (plain_password : String)
    (hashed_password : String) : Bool :=
  verify plain_password hashed_password

/-- UserService.authenticate: look up by username; absent yields none; a failed
password verification also yields none; otherwise the user is returned. -/
def authenticate (verify : String → String → Bool) (store : List User)
    (username : String) (password : String) : Option User :=
  match get_by_username store username with
  | none => none
  | some user =>
      if verify_password verify password user.hashed_password then some user else none

end UserService

/-- Tasks of the given owner that pass the optional status filter.  Follows the
spec words for the filtered set of listByOwner: stored tasks whose owner_id
equals the given owner and, when a status filter is given, whose status equals
the filter. -/
def specFilteredTasks (store : List Task) (owner_id : Nat)
    (status_filter : Option TaskStatus) : List Task :=
  store.filter (fun t =>
    t.owner_id == owner_id &&
      (match status_filter with
       | none => true
       | some s => t.status == s))

/-! Helper lemmas. -/

/-- The query built by get_by_owner (owner filter, then optional status filter)
computes the filtered set described by the spec, so get_by_owner is the
skip/limit window of that set sorted by creation time descending, paired with
the size of the full filtered set. -/
theorem get_by_owner_eq (store : List Task) (owner_id : Nat) (sf : Option TaskStatus)
    (skip limit : Nat) :
    TaskService.get_by_owner store owner_id sf skip limit =
      (((sortByCreatedDesc (specFilteredTasks store owner_id sf)).drop skip).take limit,
       (specFilteredTasks store owner_id sf).length) := by
  cases sf with
  | none => simp [TaskService.get_by_owner, specFilteredTasks]
  | some s =>
      simp [TaskService.get_by_owner, specFilteredTasks, List.filter_filter, Bool.and_comm]

/-- The page window is a sublist of the sorted filtered set. -/
theorem window_sublist (l : List Task) (skip limit : Nat) :
    ((l.drop skip).take limit).Sublist l :=
  (List.take_sublist limit (l.drop skip)).trans (List.drop_sublist skip l)

/-- Concrete task used to instantiate universally quantified theorems. -/
def wTask1 : Task :=
  { id := 1, title := "T1", description := none, status := .pending, priority := 1,
    owner_id := 7, created_at := 5, updated_at := none, due_date := none }

/-- Second concrete task, created later than the first. -/
def wTask2 : Task :=
  { id := 2, title := "T2", description := none, status := .completed, priority := 2,
    owner_id := 7, created_at := 9, updated_at := none, due_date := none }

/-! Claim theorems. -/

/-- C1: for every owner id, optional status filter and skip/limit, get_by_owner
returns (tasks, totalCount) where totalCount is the size of the filtered set
(owner matches, status matches the filter when given), independent of skip and
limit; the returned sequence is the window at offset skip with at most limit
elements of the filtered set ordered by creation time most recent first, and
contains only tasks of the filtered set. -/
theorem getByOwner_pagination_spec (store : List Task) (owner_id : Nat)
    (sf : Option TaskStatus) (skip limit : Nat) :
    (TaskService.get_by_owner store owner_id sf skip limit).2
        = (specFilteredTasks store owner_id sf).length
  ∧ (TaskService.get_by_owner store owner_id sf skip limit).1
        = ((sortByCreatedDesc (specFilteredTasks store owner_id sf)).drop skip).take limit
  ∧ (sortByCreatedDesc (specFilteredTasks store owner_id sf)).Perm
        (specFilteredTasks store owner_id sf)
  ∧ List.Sorted CreatedDesc (sortByCreatedDesc (specFilteredTasks store owner_id sf))
  ∧ (∀ t, t ∈ (TaskService.get_by_owner store owner_id sf skip limit).1 →
        t ∈ specFilteredTasks store owner_id sf)
  ∧ List.Sorted CreatedDesc (TaskService.get_by_owner store owner_id sf skip limit).1
  ∧ (TaskService.get_by_owner store owner_id sf skip limit).1.length ≤ limit := by
  rw [get_by_owner_eq]
  refine ⟨rfl, rfl, List.perm_insertionSort _ _, List.sorted_insertionSort _ _, ?_, ?_, ?_⟩
  · intro t ht
    exact (List.perm_insertionSort CreatedDesc _).subset
      ((window_sublist _ skip limit).mem ht)
  · exact List.Pairwise.sublist (window_sublist _ skip limit)
      (List.sorted_insertionSort CreatedDesc _)
  · exact List.length_take_le limit _

/-- Witness for C1 at a concrete store: the page-membership conjunct applied to
a concrete task, with its hypothesis discharged by evaluation. -/
theorem getByOwner_pagination_spec_witness :
    wTask2 ∈ specFilteredTasks [wTask1, wTask2] 7 none :=
  (getByOwner_pagination_spec [wTask1, wTask2] 7 none 0 3).2.2.2.2.1 wTask2 (by decide)

/-- C9: whenever skip is at least the size of the filtered set, get_by_owner
returns an empty page while totalCount still equals the full filtered count. -/
theorem getByOwner_skip_past_end (store : List Task) (owner_id : Nat)
    (sf : Option TaskStatus) (skip limit : Nat)
    (h : (specFilteredTasks store owner_id sf).length ≤ skip) :
    (TaskService.get_by_owner store owner_id sf skip limit).1 = []
  ∧ (TaskService.get_by_owner store owner_id sf skip limit).2
        = (specFilteredTasks store owner_id sf).length := by
  rw [get_by_owner_eq]
  refine ⟨?_, rfl⟩
  have hlen : (sortByCreatedDesc (specFilteredTasks store owner_id sf)).length ≤ skip := by
    simp only [sortByCreatedDesc]
    rw [(List.perm_insertionSort CreatedDesc _).length_eq]
    exact h
  simp [List.drop_eq_nil_of_le hlen]

/-- Witness for C9: two matching tasks, skip of five, empty page and total two. -/
theorem getByOwner_skip_past_end_witness :
    (TaskService.get_by_owner [wTask1, wTask2] 7 none 5 3).1 = []
  ∧ (TaskService.get_by_owner [wTask1, wTask2] 7 none 5 3).2
        = (specFilteredTasks [wTask1, wTask2] 7 none).length :=
  getByOwner_skip_past_end [wTask1, wTask2] 7 none 5 3 (by decide)

/-- C2: mark_completed on an id that exists in the store, whatever the current
status of the task, returns the task with status completed and makes the stored
task's status completed; on an id with no stored task it returns none and
leaves the store unchanged. -/
theorem markCompleted_spec (store : List Task) (task_id now : Nat) :
    ((∀ t, t ∈ store → t.id ≠ task_id) →
        TaskService.mark_completed store task_id now = (none, store))
  ∧ (∀ t, t ∈ store → t.id = task_id →
        (∃ u, (TaskService.mark_completed store task_id now).1 = some u
            ∧ u.status = .completed)
      ∧ (∀ v, v ∈ (TaskService.mark_completed store task_id now).2 → v.id = task_id →
            v.status = .completed)) := by
  constructor
  · intro hnone
    have hfind : TaskService.get_by_id store task_id = none := by
      rw [TaskService.get_by_id, List.find?_eq_none]
      intro x hx
      simp [hnone x hx]
    simp [TaskService.mark_completed, hfind]
  · intro t ht hid
    have hsome : (TaskService.get_by_id store task_id).isSome := by
      rw [TaskService.get_by_id, List.find?_isSome]
      exact ⟨t, ht, by simp [hid]⟩
    obtain ⟨w, hw⟩ := Option.isSome_iff_exists.mp hsome
    constructor
    · refine ⟨{ w with status := .completed, updated_at := some now }, ?_, rfl⟩
      simp [TaskService.mark_completed, hw]
    · intro v hv hvid
      simp only [TaskService.mark_completed, hw, List.mem_map] at hv
      rcases hv with ⟨x, hx, hxv⟩
      by_cases hxid : x.id = task_id
      · rw [← hxv]
        simp [hxid]
      · rw [← hxv] at hvid
        simp [hxid] at hvid

/-- Witness for C2: marking the pending concrete task completed yields a
returned task with status completed. -/
theorem markCompleted_spec_witness :
    ∃ u, (TaskService.mark_completed [wTask1] 1 6).1 = some u
        ∧ u.status = .completed :=
  ((markCompleted_spec [wTask1] 1 6).2 wTask1 (by decide) (by decide)).1

/-- C5: create persists a task whose status is pending (the input schema
carries no status field and the service forces PENDING) and whose owner_id is
the supplied owner id. -/
theorem create_forces_pending (store : List Task) (task_data : TaskCreate)
    (owner_id now : Nat) :
    (TaskService.create store task_data owner_id now).1.status = .pending
  ∧ (TaskService.create store task_data owner_id now).1.owner_id = owner_id
  ∧ (TaskService.create store task_data owner_id now).1
        ∈ (TaskService.create store task_data owner_id now).2 := by
  refine ⟨rfl, rfl, ?_⟩
  simp [TaskService.create]

/-- C8: delete returns true exactly when a record with the id existed, in which
case no record with that id remains in the store; it returns false and leaves
the store unchanged when no such record existed; for the task store and the
user store alike. -/
theorem delete_spec (store_t : List Task) (store_u : List User)
    (task_id user_id : Nat) :
    ((TaskService.delete store_t task_id).1 = true ↔
        ∃ t, t ∈ store_t ∧ t.id = task_id)
  ∧ ((TaskService.delete store_t task_id).1 = false →
        (TaskService.delete store_t task_id).2 = store_t)
  ∧ ((TaskService.delete store_t task_id).1 = true →
        ∀ v, v ∈ (TaskService.delete store_t task_id).2 → v.id ≠ task_id)
  ∧ ((UserService.delete store_u user_id).1 = true ↔
        ∃ u, u ∈ store_u ∧ u.id = user_id)
  ∧ ((UserService.delete store_u user_id).1 = false →
        (UserService.delete store_u user_id).2 = store_u)
  ∧ ((UserService.delete store_u user_id).1 = true →
        ∀ v, v ∈ (UserService.delete store_u user_id).2 → v.id ≠ user_id) := by
  refine ⟨?_, ?_, ?_, ?_, ?_, ?_⟩
  · cases hfind : TaskService.get_by_id store_t task_id with
    | none =>
        rw [TaskService.get_by_id, List.find?_eq_none] at hfind
        simp only [TaskService.delete, TaskService.get_by_id]
        rw [List.find?_eq_none.mpr hfind]
        simpa using fun x hx hid => by simpa [hid] using hfind x hx
    | some w =>
        have hmem := List.mem_of_find?_eq_some hfind
        have hkey : w.id = task_id := by simpa using List.find?_some hfind
        simp only [TaskService.delete, hfind]
        simpa using ⟨w, hmem, hkey⟩
  · intro hfalse
    cases hfind : TaskService.get_by_id store_t task_id with
    | none => simp [TaskService.delete, hfind]
    | some w => simp [TaskService.delete, hfind] at hfalse
  · intro _ v hv
    cases hfind : TaskService.get_by_id store_t task_id with
    | none =>
        simp only [TaskService.delete, hfind] at hv
        intro hvid
        rw [TaskService.get_by_id, List.find?_eq_none] at hfind
        simpa [hvid] using hfind v hv
    | some w =>
        simp only [TaskService.delete, hfind, List.mem_filter] at hv
        simpa using hv.2
  · cases hfind : UserService.get_by_id store_u user_id with
    | none =>
        rw [UserService.get_by_id, List.find?_eq_none] at hfind
        simp only [UserService.delete, UserService.get_by_id]
        rw [List.find?_eq_none.mpr hfind]
        simpa using fun x hx hid => by simpa [hid] using hfind x hx
    | some w =>
        have hmem := List.mem_of_find?_eq_some hfind
        have hkey : w.id = user_id := by simpa using List.find?_some hfind
        simp only [UserService.delete, hfind]
        simpa using ⟨w, hmem, hkey⟩
  · intro hfalse
    cases hfind : UserService.get_by_id store_u user_id with
    | none => simp [UserService.delete, hfind]
    | some w => simp [UserService.delete, hfind] at hfalse
  · intro _ v hv
    cases hfind : UserService.get_by_id store_u user_id with
    | none =>
        simp only [UserService.delete, hfind] at hv
        intro hvid
        rw [UserService.get_by_id, List.find?_eq_none] at hfind
        simpa [hvid] using hfind v hv
    | some w =>
        simp only [UserService.delete, hfind, List.mem_filter] at hv
        simpa using hv.2

/-- Concrete user used to instantiate universally quantified theorems. -/
def wUser1 : User :=
  { id := 3, email := "a@x.com", username := "a", hashed_password := "#pw1",
    full_name := none, is_active := true, is_superuser := false,
    created_at := 1, updated_at := none }

/-- Witness for C8: deleting an id that is not stored returns the store
unchanged, via the theorem's false branch at a concrete input. -/
theorem delete_spec_witness :
    (TaskService.delete [wTask1] 99).2 = [wTask1] :=
  (delete_spec [wTask1] [wUser1] 99 3).2.1 (by decide)

/-- C6: update on an unknown id returns none and leaves the store unchanged;
on a stored id it returns the stored record merged with the partial update,
where each supplied field takes the supplied value, each omitted field keeps
its previous value, and the modification timestamp is set; for tasks and users
alike. -/
theorem update_merge_spec (store_t : List Task) (store_u : List User)
    (task_id user_id now : Nat) (td : TaskUpdate) (ud : UserUpdate) :
    ((∀ t, t ∈ store_t → t.id ≠ task_id) →
        TaskService.update store_t task_id td now = (none, store_t))
  ∧ (∀ t, TaskService.get_by_id store_t task_id = some t →
        (TaskService.update store_t task_id td now).1
          = some (TaskService.applyTaskUpdate td now t))
  ∧ (∀ t, (TaskService.applyTaskUpdate td now t).title = td.title.getD t.title
      ∧ (TaskService.applyTaskUpdate td now t).description = td.description.getD t.description
      ∧ (TaskService.applyTaskUpdate td now t).status = td.status.getD t.status
      ∧ (TaskService.applyTaskUpdate td now t).priority = td.priority.getD t.priority
      ∧ (TaskService.applyTaskUpdate td now t).due_date = td.due_date.getD t.due_date
      ∧ (TaskService.applyTaskUpdate td now t).id = t.id
      ∧ (TaskService.applyTaskUpdate td now t).owner_id = t.owner_id
      ∧ (TaskService.applyTaskUpdate td now t).created_at = t.created_at
      ∧ (TaskService.applyTaskUpdate td now t).updated_at = some now)
  ∧ ((∀ u, u ∈ store_u → u.id ≠ user_id) →
        UserService.update store_u user_id ud now = (none, store_u))
  ∧ (∀ u, UserService.get_by_id store_u user_id = some u →
        (UserService.update store_u user_id ud now).1
          = some (UserService.applyUserUpdate ud now u))
  ∧ (∀ u, (UserService.applyUserUpdate ud now u).email = ud.email.getD u.email
      ∧ (UserService.applyUserUpdate ud now u).username = ud.username.getD u.username
      ∧ (UserService.applyUserUpdate ud now u).full_name = ud.full_name.getD u.full_name
      ∧ (UserService.applyUserUpdate ud now u).is_active = ud.is_active.getD u.is_active
      ∧ (UserService.applyUserUpdate ud now u).id = u.id
      ∧ (UserService.applyUserUpdate ud now u).hashed_password = u.hashed_password
      ∧ (UserService.applyUserUpdate ud now u).is_superuser = u.is_superuser
      ∧ (UserService.applyUserUpdate ud now u).created_at = u.created_at
      ∧ (UserService.applyUserUpdate ud now u).updated_at = some now) := by
  refine ⟨?_, ?_, ?_, ?_, ?_, ?_⟩
  · intro hnone
    have hfind : TaskService.get_by_id store_t task_id = none := by
      rw [TaskService.get_by_id, List.find?_eq_none]
      intro x hx
      simp [hnone x hx]
    simp [TaskService.update, hfind]
  · intro t ht
    simp [TaskService.update, ht]
  · intro t
    rcases td with ⟨a, b, c, d, e⟩
    cases a <;> cases b <;> cases c <;> cases d <;> cases e <;>
      simp [TaskService.applyTaskUpdate, Option.getD]
  · intro hnone
    have hfind : UserService.get_by_id store_u user_id = none := by
      rw [UserService.get_by_id, List.find?_eq_none]
      intro x hx
      simp [hnone x hx]
    simp [UserService.update, hfind]
  · intro u hu
    simp [UserService.update, hu]
  · intro u
    rcases ud with ⟨a, b, c, d⟩
    cases a <;> cases b <;> cases c <;> cases d <;>
      simp [UserService.applyUserUpdate, Option.getD]

/-- Witness for C6: updating the stored concrete task's priority alone returns
the merged record, with the title kept and the priority replaced. -/
theorem update_merge_spec_witness :
    (TaskService.update [wTask1] 1
        { title := none, description := none, status := none,
          priority := some 5, due_date := none } 6).1
      = some (TaskService.applyTaskUpdate
          { title := none, description := none, status := none,
            priority := some 5, due_date := none } 6 wTask1) :=
  (update_merge_spec [wTask1] [wUser1] 1 3 6
      { title := none, description := none, status := none,
        priority := some 5, due_date := none }
      { email := none, username := none, full_name := none, is_active := none }).2.1
    wTask1 (by decide)

/-- C10: a user update can never alter a password: the UserUpdate schema has no
password field, the merge leaves hashed_password unchanged, and the stored
sequence of hashed passwords is unchanged by update. -/
theorem userUpdate_cannot_change_password (store : List User) (user_id now : Nat)
    (ud : UserUpdate) :
    ((UserService.update store user_id ud now).2.map (fun u => u.hashed_password))
        = store.map (fun u => u.hashed_password)
  ∧ (∀ u, (UserService.applyUserUpdate ud now u).hashed_password
        = u.hashed_password) := by
  have happly : ∀ u, (UserService.applyUserUpdate ud now u).hashed_password
      = u.hashed_password := by
    intro u
    rcases ud with ⟨a, b, c, d⟩
    cases a <;> cases b <;> cases c <;> cases d <;>
      simp [UserService.applyUserUpdate]
  refine ⟨?_, happly⟩
  cases hfind : UserService.get_by_id store user_id with
  | none => simp [UserService.update, hfind]
  | some w =>
      simp only [UserService.update, hfind, List.map_map]
      refine List.map_congr_left ?_
      intro v _
      by_cases hv : v.id = user_id <;> simp [hv, happly]

/-- C4: authenticate returns a stored user exactly when lookup by username
finds that user and password verification against its hashed_password
succeeds; an unknown username and a failed verification both yield the same
absent result. -/
theorem authenticate_spec (verify : String → String → Bool) (store : List User)
    (username pw : String) :
    (∀ u, UserService.authenticate verify store username pw = some u ↔
        (UserService.get_by_username store username = some u
          ∧ verify pw u.hashed_password = true))
  ∧ (UserService.get_by_username store username = none →
        UserService.authenticate verify store username pw = none)
  ∧ (∀ u, UserService.get_by_username store username = some u →
        verify pw u.hashed_password = false →
        UserService.authenticate verify store username pw = none) := by
  refine ⟨?_, ?_, ?_⟩
  · intro u
    cases hfind : UserService.get_by_username store username with
    | none => simp [UserService.authenticate, hfind]
    | some w =>
        by_cases hv : verify pw w.hashed_password
        · simp only [UserService.authenticate, UserService.verify_password, hfind,
            if_pos hv, Option.some.injEq]
          constructor
          · intro h
            exact ⟨h ▸ rfl, h ▸ hv⟩
          · intro h
            exact h.1
        · simp only [UserService.authenticate, UserService.verify_password, hfind,
            if_neg hv, Option.some.injEq]
          constructor
          · intro h
            cases h
          · rintro ⟨h1, h2⟩
            exact absurd (h1 ▸ h2) hv
  · intro hfind
    simp [UserService.authenticate, hfind]
  · intro u hfind hv
    simp [UserService.authenticate, UserService.verify_password, hfind, hv]

/-- Verification function used to instantiate the authentication theorem: a
digest matches when it is the plaintext tagged with a marker. -/
def wVerify (plain : String) (hashed : String) : Bool :=
  hashed == ("#" ++ plain)

/-- Witness for C4: at a concrete store, the stored user authenticates with
the matching password, via the iff of the theorem. -/
theorem authenticate_spec_witness :
    UserService.authenticate wVerify [wUser1] "a" "pw1" = some wUser1 :=
  ((authenticate_spec wVerify [wUser1] "a" "pw1").1 wUser1).mpr
    ⟨by decide, by decide⟩

/-- C7: with a password hasher meeting the spec contract (the digest is never
the plaintext), create persists a user whose hashed_password differs from the
submitted plaintext password, for any registration whose email and username
are unused. -/
theorem userCreate_hashes_password (hash : String → String) (store : List User)
    (user_data : UserCreate) (now : Nat)
    (hhash : ∀ p, hash p ≠ p)
    (_hemail : ∀ u, u ∈ store → u.email ≠ user_data.email)
    (_husername : ∀ u, u ∈ store → u.username ≠ user_data.username) :
    (UserService.create hash store user_data now).1.hashed_password
        ≠ user_data.password
  ∧ (UserService.create hash store user_data now).1
        ∈ (UserService.create hash store user_data now).2 := by
  refine ⟨?_, ?_⟩
  · exact hhash user_data.password
  · simp [UserService.create]

/-- Hashing function used to instantiate the creation theorem: tag the
plaintext with a marker, so the digest always differs from the plaintext. -/
def wHash (p : String) : String := "#" ++ p

/-- Witness for C7: creating a concrete user with the marker hasher yields a
stored digest different from the plaintext. -/
theorem userCreate_hashes_password_witness :
    (UserService.create wHash []
        { email := "b@x.com", username := "b", full_name := none,
          password := "pass1234" } 0).1.hashed_password ≠ "pass1234" :=
  (userCreate_hashes_password wHash []
      { email := "b@x.com", username := "b", full_name := none,
        password := "pass1234" } 0
      (fun p h => by
        have hl := congrArg String.length h
        rw [wHash, String.length_append] at hl
        have h1 : ("#" : String).length = 1 := rfl
        omega)
      (fun u hu => by simp at hu)
      (fun u hu => by simp at hu)).1

/-- Cumulative effect on a single key of a sequence of keyed writes: each pair
overwrites the value at its key, later pairs last. -/
def applyPairs (L : List (TaskStatus × Nat)) (f : TaskStatus → Nat) : TaskStatus → Nat :=
  L.foldl (fun g p => fun s => if s = p.1 then p.2 else g s) f

/-- Writing through dictSet into the zero-filled four-key dict keeps its shape:
the four keys stay, in order, and only the written status changes value. -/
theorem dictSet_canonical (f : TaskStatus → Nat) (s0 : TaskStatus) (c : Nat) :
    TaskService.dictSet (TaskStatus.all.map (fun s => (s.value, f s))) s0.value c
      = TaskStatus.all.map (fun s => (s.value, if s = s0 then c else f s)) := by
  cases s0 <;> rfl

/-- Folding dictSet writes over the canonical four-key dict computes the
pointwise cumulative write. -/
theorem foldl_dictSet_canonical (L : List (TaskStatus × Nat)) (f : TaskStatus → Nat) :
    L.foldl (fun m p => TaskService.dictSet m p.1.value p.2)
        (TaskStatus.all.map (fun s => (s.value, f s)))
      = TaskStatus.all.map (fun s => (s.value, applyPairs L f s)) := by
  induction L generalizing f with
  | nil => rfl
  | cons p L ih =>
      rw [List.foldl_cons, dictSet_canonical f p.1 p.2, ih]
      rfl

/-- Cumulative writes built from a keyed list of values: the final value at a
status is the listed value when the status occurs, the initial value otherwise. -/
theorem applyPairs_map_statuses (S : List TaskStatus) (c : TaskStatus → Nat)
    (f : TaskStatus → Nat) (s : TaskStatus) :
    applyPairs (S.map (fun u => (u, c u))) f s = if s ∈ S then c s else f s := by
  induction S generalizing f with
  | nil => simp [applyPairs]
  | cons u S ih =>
      rw [List.map_cons]
      have hstep : applyPairs ((u, c u) :: S.map (fun v => (v, c v))) f
          = applyPairs (S.map (fun v => (v, c v))) (fun s => if s = u then c u else f s) := rfl
      rw [hstep, ih]
      by_cases h1 : s ∈ S
      · simp [h1, List.mem_cons]
      · by_cases h2 : s = u
        · simp [h1, h2]
        · simp [h1, h2, List.mem_cons]

/-- Replaying the grouped count rows over a zero initial value yields the
status count, also for statuses absent from the rows. -/
theorem applyPairs_groupCounts (tasks : List Task) (s : TaskStatus) :
    applyPairs (TaskService.groupCounts tasks) (fun _ => 0) s
      = tasks.countP (fun t => t.status == s) := by
  rw [TaskService.groupCounts, applyPairs_map_statuses]
  by_cases h : s ∈ TaskService.statusesOf tasks
  · simp [h]
  · rw [if_neg h]
    symm
    rw [List.countP_eq_zero]
    intro t ht
    simp only [beq_iff_eq]
    intro hst
    exact h (by rw [TaskService.statusesOf, List.mem_dedup]; exact List.mem_map.mpr ⟨t, ht, hst⟩)

/-- Closed form of get_stats: the four status values in enumeration order, each
paired with the status count among the owner's tasks. -/
theorem get_stats_eq (store : List Task) (owner_id : Nat) :
    TaskService.get_stats store owner_id
      = TaskStatus.all.map (fun s =>
          (s.value,
           (store.filter (fun t => t.owner_id == owner_id)).countP
             (fun t => t.status == s))) := by
  have hfold := foldl_dictSet_canonical
    (TaskService.groupCounts (store.filter (fun t => t.owner_id == owner_id)))
    (fun _ => 0)
  refine Eq.trans hfold ?_
  refine List.map_congr_left ?_
  intro s _
  rw [applyPairs_groupCounts]

/-- Every task carries exactly one of the four statuses, so the four status
counts partition the list. -/
theorem countP_status_partition (tasks : List Task) :
    tasks.countP (fun t => t.status == TaskStatus.pending)
      + tasks.countP (fun t => t.status == TaskStatus.in_progress)
      + tasks.countP (fun t => t.status == TaskStatus.completed)
      + tasks.countP (fun t => t.status == TaskStatus.cancelled)
      = tasks.length := by
  induction tasks with
  | nil => rfl
  | cons t ts ih =>
      simp only [List.countP_cons, List.length_cons]
      cases h : t.status <;> simp [h] <;> omega

/-- C3: get_stats returns a mapping whose keys are exactly the four status
values in enumeration order; each status value maps to the number of the
owner's tasks in that status (zero when there are none), and the four counts
sum to the owner's total task count. -/
theorem getStats_spec (store : List Task) (owner_id : Nat) :
    ((TaskService.get_stats store owner_id).map Prod.fst
        = ["pending", "in_progress", "completed", "cancelled"])
  ∧ (∀ s : TaskStatus,
        (TaskService.get_stats store owner_id).lookup s.value
          = some ((store.filter (fun t => t.owner_id == owner_id)).countP
              (fun t => t.status == s)))
  ∧ (((TaskService.get_stats store owner_id).map Prod.snd).sum
        = (store.filter (fun t => t.owner_id == owner_id)).length) := by
  rw [get_stats_eq]
  refine ⟨?_, ?_, ?_⟩
  · rfl
  · intro s
    cases s <;> rfl
  · simp only [TaskStatus.all, List.map_cons, List.map_nil, List.sum_cons, List.sum_nil]
    have hpart := countP_status_partition (store.filter (fun t => t.owner_id == owner_id))
    omega

end TaskFlow
